import Mathlib

/-!
Verification of the SASPS caching-strategy services.

This file gives a shallow embedding of the strategy engine of the SASPS
repository: the record store (DatabaseService, src/services/database.js),
the cache wrapper (RedisService, src/services/redis.js), the per-service
stats counters, the write-behind queue with its coalescing insert and
drain (src/strategies/WriteBehind.js), and the request handlers of the
write-behind, write-around, read-through and no-caching services.

Modelling conventions:
- records and request bodies are JSON-style objects, embedded as
  association lists of string fields to string values;
- asynchronous handlers are embedded as pure state-transition functions
  on an explicit service state (the event loop runs each handler without
  interleaving, so a handler is a single atomic step here);
- a cache-layer failure (CacheFailure) is modelled by a boolean fault
  flag threaded to every Redis call of a request: the wrapper absorbs
  the failure and returns its fallback value, as in redis.js;
- a record-store failure during the flush loop (StoreFailure) is
  modelled by a list of booleans saying which database call of the
  drain raises; a raising call leaves the store unchanged;
- Date.now() timestamps on pending writes are modelled by a logical
  clock on the service state, ticked on every enqueue;
- wall-clock response times are not modelled; recordDuration pushes 0.
-/

set_option autoImplicit false

namespace SASPS

/-- Record fields and field values, both strings. -/
abbrev Field := String

/-- A JSON-style object: an association list from fields to values.
The first binding of a field wins on lookup. -/
abbrev Obj := List (Field × String)

/-- JS object spread os { ...a, ...b }: the fields of b override those of a. -/
def jsMerge (a b : Obj) : Obj :=
  a.filter (fun p => (b.lookup p.1).isNone) ++ b

/-! DatabaseService (src/services/database.js), product operations.
The store is the products table: rows keyed by productCode. -/

/-- The record store: product rows keyed by productCode. -/
abbrev Db := List (String × Obj)

/-- One SQL column assignment: set column f of the row to v, where an
absent value (SQL NULL) removes the column. -/
def setCol (row : Obj) (f : Field) (v : Option String) : Obj :=
  match v with
  | some x => row.filter (fun p => p.1 != f) ++ [(f, x)]
  | none => row.filter (fun p => p.1 != f)

/-- The four columns set by the UPDATE statement of updateProduct. -/
def productUpdateCols : List Field :=
  ["productName", "quantityInStock", "buyPrice", "MSRP"]

/-- The nine columns inserted by the INSERT statement of createProduct. -/
def productInsertCols : List Field :=
  ["productCode", "productName", "productLine", "productScale", "productVendor",
   "productDescription", "quantityInStock", "buyPrice", "MSRP"]

/-- DatabaseService.getProductById: SELECT * FROM products WHERE productCode = id;
returns the first row or null. -/
def getProductById (db : Db) (id : String) : Option Obj :=
  db.lookup id

/-- DatabaseService.getAllProducts: SELECT * FROM products LIMIT limit. -/
def getAllProducts (db : Db) (limit : Nat) : List Obj :=
  (db.take limit).map Prod.snd

/-- Effect of the UPDATE statement on one row: the four product columns
are set from data (an absent field becomes NULL). -/
def applyProductUpdate (data row : Obj) : Obj :=
  productUpdateCols.foldl (fun r f => setCol r f (data.lookup f)) row

/-- DatabaseService.updateProduct: UPDATE products SET the four columns
from data WHERE productCode = id. -/
def updateProduct (db : Db) (id : String) (data : Obj) : Db :=
  db.map (fun p => if p.1 = id then (p.1, applyProductUpdate data p.2) else p)

/-- Row built by the INSERT column list of createProduct. -/
def rowOfProduct (product : Obj) : Obj :=
  productInsertCols.foldl (fun r f => setCol r f (product.lookup f)) []

/-- DatabaseService.createProduct: INSERT INTO products of the nine
listed columns; the new row is keyed by the productCode field. -/
def createProduct (db : Db) (product : Obj) : Db :=
  db ++ [((product.lookup "productCode").getD "", rowOfProduct product)]

/-- DatabaseService.deleteProduct: DELETE FROM products WHERE productCode = id. -/
def deleteProduct (db : Db) (id : String) : Db :=
  db.filter (fun p => p.1 != id)

/-! RedisService (src/services/redis.js). Every call site is wrapped in
try/catch; the fault flag says whether the underlying client call throws. -/

/-- A cached value: a serialized single record or a serialized record list. -/
inductive CacheVal where
  | obj (o : Obj)
  | arr (l : List Obj)
deriving DecidableEq

/-- The cache store: entries of key, value and ttl. -/
abbrev Cache := List (String × CacheVal × Nat)

/-- Redis SET semantics: overwrite the value and ttl of an existing key,
otherwise add the entry. -/
def setEntry (c : Cache) (k : String) (v : CacheVal) (ttl : Nat) : Cache :=
  if c.any (fun p => p.1 == k) then
    c.map (fun p => if p.1 == k then (k, v, ttl) else p)
  else c ++ [(k, v, ttl)]

/-- Redis KEYS glob matching, for the only pattern shape the services
use: a literal prefix followed by a trailing star. -/
def globMatch (pattern key : String) : Bool :=
  if pattern.data.getLast? = some '*' then
    pattern.data.dropLast.isPrefixOf key.data
  else pattern == key

namespace RedisService

/-- RedisService.get: returns the parsed value or null; on a client
error it logs and returns null (a miss). -/
def get (c : Cache) (fault : Bool) (key : String) : Option CacheVal :=
  if fault then none else (c.lookup key).map Prod.fst

/-- RedisService.set: setEx key ttl value, returning true; on a client
error it logs and returns false, leaving the cache unchanged. -/
def set (c : Cache) (fault : Bool) (key : String) (v : CacheVal) (ttl : Nat) :
    Bool × Cache :=
  if fault then (false, c) else (true, setEntry c key v ttl)

/-- RedisService.del: deletes the key and returns true; on a client
error it logs and returns false, leaving the cache unchanged. -/
def del (c : Cache) (fault : Bool) (key : String) : Bool × Cache :=
  if fault then (false, c) else (true, c.filter (fun p => p.1 != key))

/-- RedisService.keys: the cached keys matching the pattern; on a client
error it logs and returns the empty list. -/
def keys (c : Cache) (fault : Bool) (pattern : String) : List String :=
  if fault then [] else (c.map Prod.fst).filter (fun k => globMatch pattern k)

/-- RedisService.flush: flushDb, returning true; on a client error it
logs and returns false, leaving the cache unchanged. -/
def flush (c : Cache) (fault : Bool) : Bool × Cache :=
  if fault then (false, c) else (true, [])

end RedisService

/-- Delete every key of the list, as the for-of del loops of the
handlers do, ignoring the boolean results. -/
def delAll (c : Cache) (fault : Bool) (ks : List String) : Cache :=
  ks.foldl (fun acc k => (RedisService.del acc fault k).2) c

/-! Stats counters, shared shape of the cache-backed services. -/

/-- The stats object of a cache-backed service. The stored
avgResponseTime field is always 0 in the source (the stats endpoint
computes the average on the fly), so it is omitted here. -/
structure Stats where
  reads : Nat
  writes : Nat
  cacheHits : Nat
  cacheMisses : Nat
  queuedWrites : Nat
  flushedWrites : Nat
  requests : List Nat
deriving DecidableEq

/-- The zeroed stats object, as built by the constructor and by the
stats-reset handlers. -/
def Stats.init : Stats :=
  { reads := 0, writes := 0, cacheHits := 0, cacheMisses := 0,
    queuedWrites := 0, flushedWrites := 0, requests := [] }

/-- recordReadHit: reads++ and cacheHits++. -/
def recordReadHit (s : Stats) : Stats :=
  { s with reads := s.reads + 1, cacheHits := s.cacheHits + 1 }

/-- recordReadMiss: reads++ and cacheMisses++. -/
def recordReadMiss (s : Stats) : Stats :=
  { s with reads := s.reads + 1, cacheMisses := s.cacheMisses + 1 }

/-- recordWrite: writes++. -/
def recordWrite (s : Stats) : Stats :=
  { s with writes := s.writes + 1 }

/-- recordDuration: push the response time onto the requests list. -/
def recordDuration (s : Stats) (ms : Nat) : Stats :=
  { s with requests := s.requests ++ [ms] }

/-! The write-behind queue (WriteBehind.js). -/

/-- The operation field of a pending write. -/
inductive WriteOp where
  | update
  | create
  | delete
deriving DecidableEq

/-- The string used to build the queue key from the operation. -/
def WriteOp.name : WriteOp → String
  | .update => "update"
  | .create => "create"
  | .delete => "delete"

/-- A pending write: operation, record id, payload and enqueue timestamp. -/
structure PendingWrite where
  operation : WriteOp
  id : String
  data : Option Obj
  timestamp : Nat
deriving DecidableEq

/-- The write queue: a JS Map from queue-key strings to pending writes,
kept in insertion order. -/
abbrev WriteQueue := List (String × PendingWrite)

/-- JS Map.set: replace the value of an existing key in place, keeping
its original insertion position; otherwise append the new entry. -/
def mapSet (q : WriteQueue) (k : String) (w : PendingWrite) : WriteQueue :=
  if q.any (fun p => p.1 == k) then
    q.map (fun p => if p.1 == k then (k, w) else p)
  else q ++ [(k, w)]

/-- The cache ttl of every service, this.cacheTTL = 3600. -/
def cacheTTL : Nat := 3600

/-- WriteBehindService.getCacheKey. -/
def getCacheKey (type id : String) : String :=
  "write-behind:" ++ type ++ ":" ++ id

/-- The write-behind service state: the record store, the cache, the
write queue, the stats, and the logical clock standing for Date.now(). -/
structure WBState where
  db : Db
  cache : Cache
  writeQueue : WriteQueue
  stats : Stats
  now : Nat
deriving DecidableEq

/-- The state of a freshly initialized write-behind service over a given
record store: empty cache, empty queue, zeroed stats. -/
def WBState.init (db : Db) : WBState :=
  { db := db, cache := [], writeQueue := [], stats := Stats.init, now := 0 }

/-- WriteBehindService.queueWrite: insert the pending write into the
Map under the key operation:id (coalescing an entry with that exact
key), count it, and tick the clock. -/
def queueWrite (st : WBState) (operation : WriteOp) (id : String)
    (data : Option Obj) : WBState :=
  let key := operation.name ++ ":" ++ id
  { st with
    writeQueue := mapSet st.writeQueue key
      { operation := operation, id := id, data := data, timestamp := st.now },
    stats := { st.stats with queuedWrites := st.stats.queuedWrites + 1 },
    now := st.now + 1 }

/-- One arm of the switch in the flush loop: apply a pending write to
the record store. -/
def applyWrite (db : Db) (w : PendingWrite) : Db :=
  match w.operation with
  | .update => updateProduct db w.id (w.data.getD [])
  | .create => createProduct db (w.data.getD [])
  | .delete => deleteProduct db w.id

/-- The drained snapshot Array.from(this.writeQueue.values()). -/
def drainedWrites (st : WBState) : List PendingWrite :=
  st.writeQueue.map Prod.snd

/-- The for loop of flushWriteQueue over the drained snapshot: the nth
entry of throws says whether the nth database call raises; a raising
call is caught, leaves the store unchanged and skips the counter
increment, and the loop continues. -/
def flushLoop (throws : List Bool) (db : Db) (flushed : Nat) :
    List PendingWrite → Db × Nat
  | [] => (db, flushed)
  | w :: ws =>
    if throws.headD false then flushLoop throws.tail db flushed ws
    else flushLoop throws.tail (applyWrite db w) (flushed + 1) ws

/-- WriteBehindService.flushWriteQueue, with the store-failure trace
made explicit: return early on an empty queue, otherwise snapshot the
queue values, clear the Map, and run the flush loop. -/
def flushWriteQueueWith (throws : List Bool) (st : WBState) : WBState :=
  if st.writeQueue.isEmpty then st
  else
    let writes := drainedWrites st
    let r := flushLoop throws st.db st.stats.flushedWrites writes
    { st with
      db := r.1,
      writeQueue := [],
      stats := { st.stats with flushedWrites := r.2 } }

/-- flushWriteQueue when no database call raises. -/
def flushWriteQueue (st : WBState) : WBState :=
  flushWriteQueueWith [] st

/-! The write-behind request handlers (WriteBehind.js getRouter).
The customer and order endpoints repeat the product read path verbatim,
so the product endpoints are the modelled operation surface. -/

/-- Outcome of a read endpoint: the json data with its source tag, or a
404 not-found response. -/
inductive ReadResult where
  | ok (data : CacheVal) (source : String)
  | notFound
deriving DecidableEq

/-- Outcome of a write endpoint: success or a 404 not-found response. -/
inductive WriteResult where
  | ok
  | notFound
deriving DecidableEq

/-- Handler of GET /products/:id: cache-aside read. Cache hit counts a
hit and serves from the cache; miss counts a miss, loads from the
record store and populates the cache only when a record was found. -/
def wbGetProduct (fault : Bool) (id : String) (st : WBState) :
    ReadResult × WBState :=
  let cacheKey := getCacheKey "product" id
  match RedisService.get st.cache fault cacheKey with
  | some product =>
    (.ok product "cache",
     { st with stats := recordDuration (recordReadHit st.stats) 0 })
  | none =>
    let stats := recordReadMiss st.stats
    match getProductById st.db id with
    | some product =>
      let c := (RedisService.set st.cache fault cacheKey (.obj product) cacheTTL).2
      (.ok (.obj product) "database",
       { st with cache := c, stats := recordDuration stats 0 })
    | none => (.notFound, { st with stats := recordDuration stats 0 })

/-- Handler of GET /products: list read keyed by all:limit; on a miss
the loaded list is cached unconditionally. -/
def wbGetAllProducts (fault : Bool) (limit : Nat) (st : WBState) :
    ReadResult × WBState :=
  let cacheKey := getCacheKey "products" ("all:" ++ toString limit)
  match RedisService.get st.cache fault cacheKey with
  | some products =>
    (.ok products "cache",
     { st with stats := recordDuration (recordReadHit st.stats) 0 })
  | none =>
    let stats := recordReadMiss st.stats
    let products := getAllProducts st.db limit
    let c := (RedisService.set st.cache fault cacheKey (.arr products) cacheTTL).2
    (.ok (.arr products) "database",
     { st with cache := c, stats := recordDuration stats 0 })

/-- Handler of PUT /products/:id: count the write, read the current
record from the store (404 when absent), write the merged record to the
cache, queue the database update, invalidate the list caches, record
the duration, acknowledge. -/
def wbUpdateProduct (fault : Bool) (id : String) (body : Obj) (st : WBState) :
    WriteResult × WBState :=
  let st := { st with stats := recordWrite st.stats }
  match getProductById st.db id with
  | none => (.notFound, st)
  | some current =>
    let updatedProduct := jsMerge current body
    let cacheKey := getCacheKey "product" id
    let c := (RedisService.set st.cache fault cacheKey (.obj updatedProduct) cacheTTL).2
    let st := queueWrite { st with cache := c } .update id (some body)
    let listKeys := RedisService.keys st.cache fault (getCacheKey "products" "*")
    let st := { st with cache := delAll st.cache fault listKeys }
    (.ok, { st with stats := recordDuration st.stats 0 })

/-- Handler of POST /products: count the write, cache the payload under
its productCode, queue the database insert, invalidate the list caches,
record the duration. -/
def wbCreateProduct (fault : Bool) (body : Obj) (st : WBState) : WBState :=
  let st := { st with stats := recordWrite st.stats }
  let id := (body.lookup "productCode").getD ""
  let cacheKey := getCacheKey "product" id
  let c := (RedisService.set st.cache fault cacheKey (.obj body) cacheTTL).2
  let st := queueWrite { st with cache := c } .create id (some body)
  let listKeys := RedisService.keys st.cache fault (getCacheKey "products" "*")
  let st := { st with cache := delAll st.cache fault listKeys }
  { st with stats := recordDuration st.stats 0 }

/-- Handler of DELETE /products/:id: count the write, delete the cache
entry, queue the database delete, invalidate the list caches, record
the duration. -/
def wbDeleteProduct (fault : Bool) (id : String) (st : WBState) : WBState :=
  let st := { st with stats := recordWrite st.stats }
  let cacheKey := getCacheKey "product" id
  let c := (RedisService.del st.cache fault cacheKey).2
  let st := queueWrite { st with cache := c } .delete id none
  let listKeys := RedisService.keys st.cache fault (getCacheKey "products" "*")
  let st := { st with cache := delAll st.cache fault listKeys }
  { st with stats := recordDuration st.stats 0 }

/-- Handler of POST /stats/reset: flush the pending writes, replace the
stats object with a zeroed one, flush the cache store. -/
def wbResetStats (fault : Bool) (st : WBState) : WBState :=
  let st := flushWriteQueue st
  let st := { st with stats := Stats.init }
  { st with cache := (RedisService.flush st.cache fault).2 }

/-- One client-visible operation of the write-behind service. -/
inductive WBOp where
  | readOne (id : String)
  | readAll (limit : Nat)
  | update (id : String) (body : Obj)
  | create (body : Obj)
  | delete (id : String)
  | flush
  | reset

/-- State transition of one write-behind operation (response discarded). -/
def wbStep (fault : Bool) (op : WBOp) (st : WBState) : WBState :=
  match op with
  | .readOne id => (wbGetProduct fault id st).2
  | .readAll limit => (wbGetAllProducts fault limit st).2
  | .update id body => (wbUpdateProduct fault id body st).2
  | .create body => wbCreateProduct fault body st
  | .delete id => wbDeleteProduct fault id st
  | .flush => flushWriteQueue st
  | .reset => wbResetStats fault st

/-- Run a sequence of write-behind operations. -/
def wbRun (fault : Bool) (ops : List WBOp) (st : WBState) : WBState :=
  ops.foldl (fun s op => wbStep fault op s) st

/-! The write-around service (WriteAround.js). -/

/-- WriteAroundService.getCacheKey. -/
def waGetCacheKey (type id : String) : String :=
  "write-around:" ++ type ++ ":" ++ id

/-- State of a service without a write queue: record store, cache, stats. -/
structure CAState where
  db : Db
  cache : Cache
  stats : Stats
deriving DecidableEq

/-- Freshly initialized queue-less service state. -/
def CAState.init (db : Db) : CAState :=
  { db := db, cache := [], stats := Stats.init }

/-- Handler of GET /products/:id of the write-around service: the
inline cache-aside read, then duration and the 404 decision. -/
def waGetProduct (fault : Bool) (id : String) (st : CAState) :
    ReadResult × CAState :=
  let cacheKey := waGetCacheKey "product" id
  match RedisService.get st.cache fault cacheKey with
  | some product =>
    (.ok product "cache",
     { st with stats := recordDuration (recordReadHit st.stats) 0 })
  | none =>
    let stats := recordReadMiss st.stats
    match getProductById st.db id with
    | some product =>
      let c := (RedisService.set st.cache fault cacheKey (.obj product) cacheTTL).2
      (.ok (.obj product) "database",
       { st with cache := c, stats := recordDuration stats 0 })
    | none => (.notFound, { st with stats := recordDuration stats 0 })

/-- Handler of GET /products of the write-around service. -/
def waGetAllProducts (fault : Bool) (limit : Nat) (st : CAState) :
    ReadResult × CAState :=
  let cacheKey := waGetCacheKey "products" ("all:" ++ toString limit)
  match RedisService.get st.cache fault cacheKey with
  | some products =>
    (.ok products "cache",
     { st with stats := recordDuration (recordReadHit st.stats) 0 })
  | none =>
    let stats := recordReadMiss st.stats
    let products := getAllProducts st.db limit
    let c := (RedisService.set st.cache fault cacheKey (.arr products) cacheTTL).2
    (.ok (.arr products) "database",
     { st with cache := c, stats := recordDuration stats 0 })

/-- WriteAroundService.invalidateProductCaches: delete the single-item
key, then every list key. -/
def waInvalidateProductCaches (fault : Bool) (id : String) (c : Cache) : Cache :=
  let c := (RedisService.del c fault (waGetCacheKey "product" id)).2
  delAll c fault (RedisService.keys c fault (waGetCacheKey "products" "*"))

/-- Handler of PUT /products/:id of the write-around service: count the
write, 404 when the record is absent, update the store only, invalidate
the caches, record the duration. -/
def waUpdateProduct (fault : Bool) (id : String) (body : Obj) (st : CAState) :
    WriteResult × CAState :=
  let st := { st with stats := recordWrite st.stats }
  match getProductById st.db id with
  | none => (.notFound, st)
  | some _ =>
    let st := { st with db := updateProduct st.db id body }
    let st := { st with cache := waInvalidateProductCaches fault id st.cache }
    (.ok, { st with stats := recordDuration st.stats 0 })

/-- Handler of POST /products of the write-around service: count the
write, insert into the store only, invalidate the list caches, record
the duration. -/
def waCreateProduct (fault : Bool) (body : Obj) (st : CAState) : CAState :=
  let st := { st with stats := recordWrite st.stats }
  let st := { st with db := createProduct st.db body }
  let listKeys := RedisService.keys st.cache fault (waGetCacheKey "products" "*")
  let st := { st with cache := delAll st.cache fault listKeys }
  { st with stats := recordDuration st.stats 0 }

/-- Handler of DELETE /products/:id of the write-around service. -/
def waDeleteProduct (fault : Bool) (id : String) (st : CAState) : CAState :=
  let st := { st with stats := recordWrite st.stats }
  let st := { st with db := deleteProduct st.db id }
  let st := { st with cache := waInvalidateProductCaches fault id st.cache }
  { st with stats := recordDuration st.stats 0 }

/-- Handler of POST /stats/reset of the write-around service: replace
the stats object with a zeroed one and flush the cache store. -/
def waResetStats (fault : Bool) (st : CAState) : CAState :=
  let st := { st with stats := Stats.init }
  { st with cache := (RedisService.flush st.cache fault).2 }

/-- One client-visible operation of the write-around service. -/
inductive WAOp where
  | readOne (id : String)
  | readAll (limit : Nat)
  | update (id : String) (body : Obj)
  | create (body : Obj)
  | delete (id : String)
  | reset

/-- State transition of one write-around operation. -/
def waStep (fault : Bool) (op : WAOp) (st : CAState) : CAState :=
  match op with
  | .readOne id => (waGetProduct fault id st).2
  | .readAll limit => (waGetAllProducts fault limit st).2
  | .update id body => (waUpdateProduct fault id body st).2
  | .create body => waCreateProduct fault body st
  | .delete id => waDeleteProduct fault id st
  | .reset => waResetStats fault st

/-- Run a sequence of write-around operations. -/
def waRun (fault : Bool) (ops : List WAOp) (st : CAState) : CAState :=
  ops.foldl (fun s op => waStep fault op s) st

/-! The read-through service (ReadThroughService). -/

/-- ReadThroughService.getCacheKey. -/
def rtGetCacheKey (type id : String) : String :=
  "read-through:" ++ type ++ ":" ++ id

/-- ReadThroughService.getOrLoad: the centralized get-or-load read
primitive. A cache hit counts a hit and returns the cached value with
source cache; a miss counts a miss, runs the loader, caches a non-null
result under the standard ttl, and returns it with source database.
The loader argument stands for the awaited loaderFn result. -/
def getOrLoad (fault : Bool) (cache : Cache) (stats : Stats) (cacheKey : String)
    (loader : Option CacheVal) : (Option CacheVal × String) × Cache × Stats :=
  match RedisService.get cache fault cacheKey with
  | some cached => ((some cached, "cache"), cache, recordReadHit stats)
  | none =>
    let stats := recordReadMiss stats
    match loader with
    | some loaded =>
      ((some loaded, "database"),
       (RedisService.set cache fault cacheKey loaded cacheTTL).2, stats)
    | none => ((none, "database"), cache, stats)

/-- The inline cache-aside read fragment of the write-around GET
/products/:id handler (cache get, hit/miss counting, store load,
conditional cache populate), abstracted over the loaded value the same
way getOrLoad is, for the equivalence comparison. -/
def waInlineRead (fault : Bool) (cache : Cache) (stats : Stats) (cacheKey : String)
    (loader : Option CacheVal) : (Option CacheVal × String) × Cache × Stats :=
  match RedisService.get cache fault cacheKey with
  | some product => ((some product, "cache"), cache, recordReadHit stats)
  | none =>
    let stats := recordReadMiss stats
    match loader with
    | some product =>
      ((some product, "database"),
       (RedisService.set cache fault cacheKey product cacheTTL).2, stats)
    | none => ((none, "database"), cache, stats)

/-- Handler of GET /products/:id of the read-through service: getOrLoad
with the product loader, then duration and the 404 decision. -/
def rtGetProduct (fault : Bool) (id : String) (st : CAState) :
    ReadResult × CAState :=
  let cacheKey := rtGetCacheKey "product" id
  let r := getOrLoad fault st.cache st.stats cacheKey
    ((getProductById st.db id).map CacheVal.obj)
  let st := { st with cache := r.2.1, stats := recordDuration r.2.2 0 }
  match r.1.1 with
  | some v => (.ok v r.1.2, st)
  | none => (.notFound, st)

/-- Handler of GET /products of the read-through service. -/
def rtGetAllProducts (fault : Bool) (limit : Nat) (st : CAState) :
    ReadResult × CAState :=
  let cacheKey := rtGetCacheKey "products" ("all:" ++ toString limit)
  let r := getOrLoad fault st.cache st.stats cacheKey
    (some (.arr (getAllProducts st.db limit)))
  let st := { st with cache := r.2.1, stats := recordDuration r.2.2 0 }
  match r.1.1 with
  | some v => (.ok v r.1.2, st)
  | none => (.notFound, st)

/-- ReadThroughService.invalidateProductLists. -/
def rtInvalidateProductLists (fault : Bool) (c : Cache) : Cache :=
  delAll c fault (RedisService.keys c fault (rtGetCacheKey "products" "*"))

/-- Handler of PUT /products/:id of the read-through service:
write-through style, store update then cache set of the merged record,
then list invalidation. -/
def rtUpdateProduct (fault : Bool) (id : String) (body : Obj) (st : CAState) :
    WriteResult × CAState :=
  let st := { st with stats := recordWrite st.stats }
  match getProductById st.db id with
  | none => (.notFound, st)
  | some current =>
    let st := { st with db := updateProduct st.db id body }
    let updatedProduct := jsMerge current body
    let c := (RedisService.set st.cache fault (rtGetCacheKey "product" id)
      (.obj updatedProduct) cacheTTL).2
    let st := { st with cache := rtInvalidateProductLists fault c }
    (.ok, { st with stats := recordDuration st.stats 0 })

/-- Handler of POST /products of the read-through service: store
insert, cache the payload when it carries a productCode, invalidate the
lists. -/
def rtCreateProduct (fault : Bool) (body : Obj) (st : CAState) : CAState :=
  let st := { st with stats := recordWrite st.stats }
  let st := { st with db := createProduct st.db body }
  let c :=
    match body.lookup "productCode" with
    | some id =>
      (RedisService.set st.cache fault (rtGetCacheKey "product" id)
        (.obj body) cacheTTL).2
    | none => st.cache
  let st := { st with cache := rtInvalidateProductLists fault c }
  { st with stats := recordDuration st.stats 0 }

/-- Handler of DELETE /products/:id of the read-through service. -/
def rtDeleteProduct (fault : Bool) (id : String) (st : CAState) : CAState :=
  let st := { st with stats := recordWrite st.stats }
  let st := { st with db := deleteProduct st.db id }
  let c := (RedisService.del st.cache fault (rtGetCacheKey "product" id)).2
  let st := { st with cache := rtInvalidateProductLists fault c }
  { st with stats := recordDuration st.stats 0 }

/-- Handler of POST /stats/reset of the read-through service. -/
def rtResetStats (fault : Bool) (st : CAState) : CAState :=
  let st := { st with stats := Stats.init }
  { st with cache := (RedisService.flush st.cache fault).2 }

/-- One client-visible operation of the read-through service. -/
inductive RTOp where
  | readOne (id : String)
  | readAll (limit : Nat)
  | update (id : String) (body : Obj)
  | create (body : Obj)
  | delete (id : String)
  | reset

/-- State transition of one read-through operation. -/
def rtStep (fault : Bool) (op : RTOp) (st : CAState) : CAState :=
  match op with
  | .readOne id => (rtGetProduct fault id st).2
  | .readAll limit => (rtGetAllProducts fault limit st).2
  | .update id body => (rtUpdateProduct fault id body st).2
  | .create body => rtCreateProduct fault body st
  | .delete id => rtDeleteProduct fault id st
  | .reset => rtResetStats fault st

/-- Run a sequence of read-through operations. -/
def rtRun (fault : Bool) (ops : List RTOp) (st : CAState) : CAState :=
  ops.foldl (fun s op => rtStep fault op s) st

/-! The no-caching service (NoCaching.js). -/

/-- The stats object of the no-caching service: no queue counters. -/
structure NCStats where
  reads : Nat
  writes : Nat
  cacheHits : Nat
  cacheMisses : Nat
  requests : List Nat
deriving DecidableEq

/-- The zeroed no-caching stats object. -/
def NCStats.init : NCStats :=
  { reads := 0, writes := 0, cacheHits := 0, cacheMisses := 0, requests := [] }

/-- NoCachingService.recordRead: reads++, and one of cacheHits or
cacheMisses depending on the hit flag (the handlers always pass false). -/
def recordRead (hit : Bool) (s : NCStats) : NCStats :=
  if hit then { s with reads := s.reads + 1, cacheHits := s.cacheHits + 1 }
  else { s with reads := s.reads + 1, cacheMisses := s.cacheMisses + 1 }

/-- State of the no-caching service. -/
structure NCState where
  db : Db
  stats : NCStats
deriving DecidableEq

/-- Freshly initialized no-caching service state. -/
def NCState.init (db : Db) : NCState :=
  { db := db, stats := NCStats.init }

/-- Handler of GET /products/:id of the no-caching service: count an
always-miss read, load from the store, duration, 404 when absent. -/
def ncGetProduct (id : String) (st : NCState) : ReadResult × NCState :=
  let stats := recordRead false st.stats
  let st := { st with stats := { stats with requests := stats.requests ++ [0] } }
  match getProductById st.db id with
  | some product => (.ok (.obj product) "database", st)
  | none => (.notFound, st)

/-- Handler of GET /products of the no-caching service. -/
def ncGetAllProducts (limit : Nat) (st : NCState) : ReadResult × NCState :=
  let stats := recordRead false st.stats
  let st := { st with stats := { stats with requests := stats.requests ++ [0] } }
  (.ok (.arr (getAllProducts st.db limit)) "database", st)

/-- Handler of PUT /products/:id of the no-caching service. -/
def ncUpdateProduct (id : String) (body : Obj) (st : NCState) :
    WriteResult × NCState :=
  let stats := { st.stats with writes := st.stats.writes + 1 }
  let st := { st with stats := { stats with requests := stats.requests ++ [0] } }
  if (getProductById st.db id).isSome then
    (.ok, { st with db := updateProduct st.db id body })
  else (.notFound, st)

/-- Handler of POST /products of the no-caching service. -/
def ncCreateProduct (body : Obj) (st : NCState) : NCState :=
  let stats := { st.stats with writes := st.stats.writes + 1 }
  let st := { st with stats := { stats with requests := stats.requests ++ [0] } }
  { st with db := createProduct st.db body }

/-- Handler of DELETE /products/:id of the no-caching service. -/
def ncDeleteProduct (id : String) (st : NCState) : NCState :=
  let stats := { st.stats with writes := st.stats.writes + 1 }
  let st := { st with stats := { stats with requests := stats.requests ++ [0] } }
  { st with db := deleteProduct st.db id }

/-- Handler of POST /stats/reset of the no-caching service. -/
def ncResetStats (st : NCState) : NCState :=
  { st with stats := NCStats.init }

/-- One client-visible operation of the no-caching service. -/
inductive NCOp where
  | readOne (id : String)
  | readAll (limit : Nat)
  | update (id : String) (body : Obj)
  | create (body : Obj)
  | delete (id : String)
  | reset

/-- State transition of one no-caching operation. -/
def ncStep (op : NCOp) (st : NCState) : NCState :=
  match op with
  | .readOne id => (ncGetProduct id st).2
  | .readAll limit => (ncGetAllProducts limit st).2
  | .update id body => (ncUpdateProduct id body st).2
  | .create body => ncCreateProduct body st
  | .delete id => ncDeleteProduct id st
  | .reset => ncResetStats st

/-- Run a sequence of no-caching operations. -/
def ncRun (ops : List NCOp) (st : NCState) : NCState :=
  ops.foldl (fun s op => ncStep op s) st

/-! Specification-order flush variant, for the ordering comparison.
The spec claims the drained writes are applied in the order each entry
was last coalesced; this variant realizes that reading by sorting the
drained snapshot by its enqueue timestamps (insertion sort, stable). -/

/-- Insert a pending write into a list sorted by ascending timestamp. -/
def insertByTimestamp (w : PendingWrite) : List PendingWrite → List PendingWrite
  | [] => [w]
  | x :: xs =>
    if w.timestamp < x.timestamp then w :: x :: xs
    else x :: insertByTimestamp w xs

/-- Sort pending writes by ascending enqueue timestamp. -/
def sortByTimestamp (ws : List PendingWrite) : List PendingWrite :=
  ws.foldr insertByTimestamp []

/-- Flush as the spec sentence describes it: drain the queue and apply
the pending writes in the order each entry was last coalesced, that is
by ascending enqueue timestamp. -/
def flushInCoalesceOrder (st : WBState) : WBState :=
  if st.writeQueue.isEmpty then st
  else
    let writes := sortByTimestamp (drainedWrites st)
    let r := flushLoop [] st.db st.stats.flushedWrites writes
    { st with
      db := r.1,
      writeQueue := [],
      stats := { st.stats with flushedWrites := r.2 } }

/-- The pending writes of a drained snapshot whose database call does
not raise, per the failure trace. -/
def survivors (throws : List Bool) : List PendingWrite → List PendingWrite
  | [] => []
  | w :: ws =>
    if throws.headD false then survivors throws.tail ws
    else w :: survivors throws.tail ws

/-- The read-counter equation of the stats object. -/
def statsOK (s : Stats) : Prop :=
  s.cacheHits + s.cacheMisses = s.reads

/-- The read-counter equation of the no-caching stats object. -/
def ncStatsOK (s : NCStats) : Prop :=
  s.cacheHits + s.cacheMisses = s.reads

/-! Helper lemmas about the association-list primitives. -/

theorem lookup_filter_ne {α : Type} (k kd : String) (c : List (String × α))
    (h : k ≠ kd) :
    (c.filter (fun p => p.1 != kd)).lookup k = c.lookup k := by
  induction c with
  | nil => rfl
  | cons a rest ih =>
    by_cases ha : a.1 = kd
    · have hk : (k == a.1) = false := by
        simp [beq_eq_false_iff_ne, ha, h]
      have hkd : (k == kd) = false := by simp [beq_eq_false_iff_ne, h]
      simp [List.filter_cons, ha, List.lookup, hk, hkd, ih]
    · simp only [List.filter_cons]
      have : (a.1 != kd) = true := by simp [bne, ha]
      simp only [this, if_true]
      by_cases hk : k = a.1
      · simp [List.lookup, hk]
      · have hk2 : (k == a.1) = false := by simp [beq_eq_false_iff_ne, hk]
        simp [List.lookup, hk2, ih]

theorem lookup_filter_self {α : Type} (kd : String) (c : List (String × α)) :
    (c.filter (fun p => p.1 != kd)).lookup kd = none := by
  induction c with
  | nil => rfl
  | cons a rest ih =>
    by_cases ha : a.1 = kd
    · simp [List.filter_cons, ha, ih]
    · have : (a.1 != kd) = true := by simp [bne, ha]
      have hk2 : (kd == a.1) = false := by
        simp [beq_eq_false_iff_ne]
        exact fun hh => ha hh.symm
      simp [List.filter_cons, this, List.lookup, hk2, ih]

theorem lookup_filter_none {α : Type} (p : String × α → Bool)
    (c : List (String × α)) (k : String) (h : c.lookup k = none) :
    (c.filter p).lookup k = none := by
  induction c with
  | nil => rfl
  | cons a rest ih =>
    have hk : (k == a.1) = false := by
      by_contra hc
      have : (k == a.1) = true := by
        cases hb : (k == a.1) with
        | false => exact absurd hb hc
        | true => rfl
      simp [List.lookup, this] at h
    have hr : rest.lookup k = none := by
      simpa [List.lookup, hk] using h
    by_cases hp : p a
    · simp [List.filter_cons, hp, List.lookup, hk, ih hr]
    · simp [List.filter_cons, hp, ih hr]

theorem lookup_delAll_not_mem (ks : List String) (c : Cache) (k : String)
    (h : ¬ k ∈ ks) :
    (delAll c false ks).lookup k = c.lookup k := by
  induction ks generalizing c with
  | nil => rfl
  | cons a rest ih =>
    have hne : k ≠ a := fun he => h (he ▸ List.mem_cons_self a rest)
    have hrest : ¬ k ∈ rest := fun hm => h (List.mem_cons_of_mem a hm)
    show (delAll ((RedisService.del c false a).2) false rest).lookup k = _
    rw [ih _ hrest]
    show ((c.filter (fun p => p.1 != a)).lookup k) = c.lookup k
    exact lookup_filter_ne k a c hne

theorem lookup_delAll_none (ks : List String) (c : Cache) (k : String)
    (h : c.lookup k = none) :
    (delAll c false ks).lookup k = none := by
  induction ks generalizing c with
  | nil => exact h
  | cons a rest ih =>
    show (delAll ((RedisService.del c false a).2) false rest).lookup k = none
    exact ih _ (lookup_filter_none _ c k h)

theorem lookup_map_replace (c : Cache) (k : String) (v : CacheVal) (ttl : Nat)
    (hc : c.any (fun p => p.1 == k) = true) :
    (c.map (fun p => if p.1 == k then (k, v, ttl) else p)).lookup k
      = some (v, ttl) := by
  induction c with
  | nil => simp at hc
  | cons a rest ih =>
    by_cases ha : a.1 = k
    · have h1 : (a.1 == k) = true := by simp [ha]
      rw [List.map_cons, if_pos h1]
      simp [List.lookup]
    · have h1 : (a.1 == k) = false := by simp [beq_eq_false_iff_ne, ha]
      have h2 : (k == a.1) = false := by
        simp only [beq_eq_false_iff_ne]
        exact fun hh => ha hh.symm
      have hrest : rest.any (fun p => p.1 == k) = true := by
        rw [List.any_cons] at hc
        simpa [h1] using hc
      rw [List.map_cons, if_neg (by simp [h1])]
      simp only [List.lookup, h2]
      simpa using ih hrest

theorem lookup_append_new (c : Cache) (k : String) (v : CacheVal) (ttl : Nat)
    (hc : c.any (fun p => p.1 == k) = false) :
    (c ++ [(k, v, ttl)]).lookup k = some (v, ttl) := by
  induction c with
  | nil => simp [List.lookup]
  | cons a rest ih =>
    rw [List.any_cons, Bool.or_eq_false_iff] at hc
    have h2 : (k == a.1) = false := by
      simp only [beq_eq_false_iff_ne]
      intro hh
      have := hc.1
      simp [hh] at this
    simp [List.cons_append, List.lookup, h2, ih hc.2]

theorem lookup_setEntry_self (c : Cache) (k : String) (v : CacheVal) (ttl : Nat) :
    (setEntry c k v ttl).lookup k = some (v, ttl) := by
  unfold setEntry
  cases hc : c.any (fun p => p.1 == k) with
  | true =>
    rw [if_pos rfl]
    exact lookup_map_replace c k v ttl hc
  | false =>
    rw [if_neg (by simp)]
    exact lookup_append_new c k v ttl hc

/-! Lemmas about list-cache key matching: the single-record keys of a
strategy are never matched by its list-invalidation pattern, because
the kind segment differs (product versus products). -/

theorem globMatch_wbProducts (k : String) :
    globMatch "write-behind:products:*" k
      = ("write-behind:products:".data).isPrefixOf k.data := by
  unfold globMatch
  rw [if_pos (by decide),
      show ("write-behind:products:*".data.dropLast) = "write-behind:products:".data
        from by decide]

theorem wb_productKey_not_matched (K : String) :
    globMatch "write-behind:products:*" (getCacheKey "product" K) = false := by
  rw [show getCacheKey "product" K = "write-behind:product:" ++ K from rfl,
      globMatch_wbProducts, String.data_append]
  rfl

theorem mem_keys_globMatch (c : Cache) (pat k : String)
    (h : k ∈ RedisService.keys c false pat) : globMatch pat k = true := by
  unfold RedisService.keys at h
  rw [if_neg (by simp)] at h
  exact (List.mem_filter.mp h).2

theorem wb_productKey_not_mem_listKeys (c : Cache) (K : String) :
    ¬ getCacheKey "product" K
        ∈ RedisService.keys c false (getCacheKey "products" "*") := by
  intro hm
  have h1 := mem_keys_globMatch c _ _ hm
  have h2 : getCacheKey "products" "*" = "write-behind:products:*" := rfl
  rw [h2] at h1
  rw [wb_productKey_not_matched K] at h1
  exact Bool.false_ne_true h1

/-! Lemmas about the record store primitives. -/

theorem lookup_updateProduct (db : Db) (id : String) (data : Obj) :
    (updateProduct db id data).lookup id
      = (db.lookup id).map (applyProductUpdate data) := by
  induction db with
  | nil => rfl
  | cons a rest ih =>
    unfold updateProduct at ih ⊢
    by_cases ha : a.1 = id
    · have h2 : (id == a.1) = true := by simp [ha]
      rw [List.map_cons, if_pos ha]
      simp [List.lookup, h2]
    · have h2 : (id == a.1) = false := by
        simp only [beq_eq_false_iff_ne]
        exact fun hh => ha hh.symm
      rw [List.map_cons, if_neg ha]
      simp only [List.lookup, h2]
      exact ih

/-! Lemmas about the write queue and the flush loop. -/

theorem any_key_iff_mem (q : WriteQueue) (k : String) :
    q.any (fun p => p.1 == k) = true ↔ k ∈ q.map Prod.fst := by
  constructor
  · intro h
    obtain ⟨p, hp, hpk⟩ := List.any_eq_true.mp h
    exact List.mem_map.mpr ⟨p, hp, by simpa using hpk⟩
  · intro h
    obtain ⟨p, hp, hpk⟩ := List.mem_map.mp h
    exact List.any_eq_true.mpr ⟨p, hp, by simp [hpk]⟩

theorem map_fst_replace (q : WriteQueue) (k : String) (w : PendingWrite) :
    (q.map (fun p => if p.1 == k then (k, w) else p)).map Prod.fst
      = q.map Prod.fst := by
  induction q with
  | nil => rfl
  | cons a rest ih =>
    by_cases hak : a.1 = k
    · rw [List.map_cons, if_pos (by simp [hak]), List.map_cons, List.map_cons, ih]
      simp [hak]
    · rw [List.map_cons, if_neg (by simp [beq_eq_false_iff_ne, hak]),
          List.map_cons, List.map_cons, ih]

theorem mapSet_keys (q : WriteQueue) (k : String) (w : PendingWrite) :
    (mapSet q k w).map Prod.fst
      = if k ∈ q.map Prod.fst then q.map Prod.fst
        else q.map Prod.fst ++ [k] := by
  unfold mapSet
  by_cases hm : k ∈ q.map Prod.fst
  · rw [if_pos ((any_key_iff_mem q k).mpr hm), if_pos hm]
    exact map_fst_replace q k w
  · have hany : ¬ q.any (fun p => p.1 == k) = true := by
      rw [any_key_iff_mem]
      exact hm
    rw [if_neg hany, if_neg hm]
    simp

theorem mapSet_replace_existing (q : WriteQueue) (k : String) (w : PendingWrite)
    (h : q.any (fun p => p.1 == k) = true) :
    mapSet q k w = q.map (fun p => if p.1 == k then (k, w) else p) := by
  unfold mapSet
  rw [if_pos h]

theorem flushLoop_spec (ws : List PendingWrite) (throws : List Bool)
    (db : Db) (flushed : Nat) :
    flushLoop throws db flushed ws
      = ((survivors throws ws).foldl applyWrite db,
         flushed + (survivors throws ws).length) := by
  induction ws generalizing throws db flushed with
  | nil => rfl
  | cons w rest ih =>
    unfold flushLoop survivors
    by_cases ht : throws.headD false
    · rw [if_pos ht, if_pos ht, ih]
    · rw [if_neg ht, if_neg ht, ih]
      simp only [List.foldl_cons, List.length_cons, Prod.mk.injEq, true_and]
      omega

theorem survivors_nil_throws (ws : List PendingWrite) :
    survivors [] ws = ws := by
  induction ws with
  | nil => rfl
  | cons w rest ih =>
    unfold survivors
    rw [if_neg (by simp)]
    simp only [List.tail_nil]
    rw [ih]

theorem survivors_single_failure (i : Nat) (ws : List PendingWrite) :
    survivors (List.replicate i false ++ [true]) ws = ws.eraseIdx i := by
  induction i generalizing ws with
  | zero =>
    cases ws with
    | nil => rfl
    | cons w rest =>
      unfold survivors
      rw [if_pos (by simp)]
      simp only [List.replicate, List.nil_append, List.tail_cons]
      rw [survivors_nil_throws]
      rfl
  | succ n ih =>
    cases ws with
    | nil => rfl
    | cons w rest =>
      unfold survivors
      rw [if_neg (by simp [List.replicate])]
      simp only [List.replicate, List.cons_append, List.tail_cons]
      rw [ih]
      rfl

/-! Write-queue key distinctness: the queue Map never holds two entries
under the same operation:id key. -/

theorem nodup_mapSet (q : WriteQueue) (k : String) (w : PendingWrite)
    (h : (q.map Prod.fst).Nodup) : ((mapSet q k w).map Prod.fst).Nodup := by
  rw [mapSet_keys]
  by_cases hm : k ∈ q.map Prod.fst
  · rwa [if_pos hm]
  · rw [if_neg hm]
    simp [List.nodup_append, h, hm]

theorem writeQueue_wbGetProduct (f : Bool) (id : String) (st : WBState) :
    (wbGetProduct f id st).2.writeQueue = st.writeQueue := by
  unfold wbGetProduct
  dsimp only
  cases RedisService.get st.cache f (getCacheKey "product" id) with
  | some v => rfl
  | none =>
    cases getProductById st.db id with
    | some p => rfl
    | none => rfl

theorem writeQueue_wbGetAllProducts (f : Bool) (limit : Nat) (st : WBState) :
    (wbGetAllProducts f limit st).2.writeQueue = st.writeQueue := by
  unfold wbGetAllProducts
  dsimp only
  cases RedisService.get st.cache f (getCacheKey "products" ("all:" ++ toString limit)) with
  | some v => rfl
  | none => rfl

theorem nodup_wbStep (f : Bool) (op : WBOp) (st : WBState)
    (h : (st.writeQueue.map Prod.fst).Nodup) :
    ((wbStep f op st).writeQueue.map Prod.fst).Nodup := by
  cases op with
  | readOne id =>
    show ((wbGetProduct f id st).2.writeQueue.map Prod.fst).Nodup
    rw [writeQueue_wbGetProduct]
    exact h
  | readAll limit =>
    show ((wbGetAllProducts f limit st).2.writeQueue.map Prod.fst).Nodup
    rw [writeQueue_wbGetAllProducts]
    exact h
  | update id body =>
    show ((wbUpdateProduct f id body st).2.writeQueue.map Prod.fst).Nodup
    unfold wbUpdateProduct
    dsimp only
    cases getProductById st.db id with
    | none => exact h
    | some cur => exact nodup_mapSet _ _ _ h
  | create body =>
    exact nodup_mapSet _ _ _ h
  | delete id =>
    exact nodup_mapSet _ _ _ h
  | flush =>
    show ((flushWriteQueue st).writeQueue.map Prod.fst).Nodup
    unfold flushWriteQueue flushWriteQueueWith
    by_cases he : st.writeQueue.isEmpty
    · rw [if_pos he]
      exact h
    · rw [if_neg he]
      simp
  | reset =>
    show ((wbResetStats f st).writeQueue.map Prod.fst).Nodup
    unfold wbResetStats flushWriteQueue flushWriteQueueWith
    dsimp only
    by_cases he : st.writeQueue.isEmpty
    · rw [if_pos he]
      exact h
    · rw [if_neg he]
      simp

theorem nodup_wbRun (f : Bool) (ops : List WBOp) (st : WBState)
    (h : (st.writeQueue.map Prod.fst).Nodup) :
    ((wbRun f ops st).writeQueue.map Prod.fst).Nodup := by
  induction ops generalizing st with
  | nil => exact h
  | cons op rest ih =>
    show ((wbRun f rest (wbStep f op st)).writeQueue.map Prod.fst).Nodup
    exact ih _ (nodup_wbStep f op st h)

/-- C1 (corrected): from any freshly initialized write-behind service,
after any sequence of operations the write queue holds at most one
pending entry per operation:id queue key (queue keys stay pairwise
distinct), because a new write coalesces exactly the entry with the
same operation and record key. -/
theorem wb_at_most_one_pending_per_opkey (fault : Bool) (ops : List WBOp)
    (db : Db) (qk : String) :
    ((wbRun fault ops (WBState.init db)).writeQueue.countP
      (fun p => p.1 == qk)) ≤ 1 := by
  have hn := nodup_wbRun fault ops (WBState.init db) (by simp [WBState.init])
  have hc := List.nodup_iff_count_le_one.mp hn qk
  rw [List.count, List.countP_map] at hc
  simpa [Function.comp] using hc

/-- C1 counterexample: the coalescing key includes the operation, so an
update followed by a delete of the same record key leaves two pending
entries for that record key, refuting operation-kind-agnostic
coalescing. -/
theorem wb_two_pending_same_record_key :
    ((wbDeleteProduct false "K"
        (wbUpdateProduct false "K" [("productName", "a")]
          (WBState.init [("K", [("productName", "x")])])).2).writeQueue.countP
      (fun p => p.2.id == "K")) = 2 := by
  decide

/-- C3 (amended): a flush drains the queue atomically (the queue is
empty afterwards for every failure trace), applies the drained writes
to the record store in the order each queue key was first inserted
(each entry carrying its most recently coalesced payload, since a
coalescing Map.set keeps the original position of an existing key), and
increments the flushed-write counter once per successfully applied
write. -/
theorem wb_flush_insertion_order (st : WBState) (throws : List Bool)
    (q : WriteQueue) (k : String) (w : PendingWrite) :
    (flushWriteQueueWith throws st).writeQueue = []
    ∧ (flushWriteQueue st).db = (drainedWrites st).foldl applyWrite st.db
    ∧ (flushWriteQueueWith throws st).stats.flushedWrites
        = st.stats.flushedWrites + (survivors throws (drainedWrites st)).length
    ∧ (mapSet q k w).map Prod.fst
        = (if k ∈ q.map Prod.fst then q.map Prod.fst
           else q.map Prod.fst ++ [k]) := by
  refine ⟨?_, ?_, ?_, mapSet_keys q k w⟩
  · unfold flushWriteQueueWith
    by_cases he : st.writeQueue.isEmpty
    · rw [if_pos he]
      exact List.isEmpty_iff.mp he
    · rw [if_neg he]
  · unfold flushWriteQueue flushWriteQueueWith
    by_cases he : st.writeQueue.isEmpty
    · rw [if_pos he]
      have : st.writeQueue = [] := List.isEmpty_iff.mp he
      simp [drainedWrites, this]
    · rw [if_neg he]
      dsimp only
      rw [flushLoop_spec, survivors_nil_throws]
  · unfold flushWriteQueueWith
    by_cases he : st.writeQueue.isEmpty
    · rw [if_pos he]
      have : st.writeQueue = [] := List.isEmpty_iff.mp he
      simp [drainedWrites, this, survivors]
    · rw [if_neg he]
      dsimp only
      rw [flushLoop_spec]

/-- C3 counterexample: create, delete, re-create of one record key. The
re-created entry keeps the first-insertion position of its queue key,
so the drained snapshot carries timestamps 2 then 1 (not ascending
coalesce order), and flushing it leaves the record absent, while
applying the same snapshot in last-coalesced (timestamp) order leaves
the record present. -/
theorem wb_flush_order_differs_from_lastCoalesced :
    ((drainedWrites
        (wbCreateProduct false [("productCode", "K2"), ("productName", "b")]
          (wbDeleteProduct false "K2"
            (wbCreateProduct false [("productCode", "K2"), ("productName", "a")]
              (WBState.init []))))).map PendingWrite.timestamp = [2, 1])
    ∧ (getProductById
        (flushWriteQueue
          (wbCreateProduct false [("productCode", "K2"), ("productName", "b")]
            (wbDeleteProduct false "K2"
              (wbCreateProduct false [("productCode", "K2"), ("productName", "a")]
                (WBState.init []))))).db "K2" = none)
    ∧ (getProductById
        (flushInCoalesceOrder
          (wbCreateProduct false [("productCode", "K2"), ("productName", "b")]
            (wbDeleteProduct false "K2"
              (wbCreateProduct false [("productCode", "K2"), ("productName", "a")]
                (WBState.init []))))).db "K2"
        = some (rowOfProduct [("productCode", "K2"), ("productName", "b")])) := by
  refine ⟨by decide, by decide, by decide⟩

/-! Characterization of the write-behind update handler when the record
exists, used by the read-after-write claims. -/

theorem wbUpdateProduct_found (f : Bool) (id : String) (body row : Obj)
    (st : WBState) (h : getProductById st.db id = some row) :
    wbUpdateProduct f id body st
      = (WriteResult.ok,
         { db := st.db,
           cache := delAll
             ((RedisService.set st.cache f (getCacheKey "product" id)
               (CacheVal.obj (jsMerge row body)) cacheTTL).2) f
             (RedisService.keys
               ((RedisService.set st.cache f (getCacheKey "product" id)
                 (CacheVal.obj (jsMerge row body)) cacheTTL).2) f
               (getCacheKey "products" "*")),
           writeQueue := mapSet st.writeQueue ("update:" ++ id)
             { operation := .update, id := id, data := some body,
               timestamp := st.now },
           stats := recordDuration
             { recordWrite st.stats with
               queuedWrites := (recordWrite st.stats).queuedWrites + 1 } 0,
           now := st.now + 1 }) := by
  unfold wbUpdateProduct
  dsimp only
  rw [h]
  dsimp only [queueWrite, WriteOp.name]
  rfl

theorem getProductById_updateProduct (db : Db) (id : String) (data : Obj) :
    getProductById (updateProduct db id data) id
      = (getProductById db id).map (applyProductUpdate data) :=
  lookup_updateProduct db id data

theorem wbUpdateProduct_db (f : Bool) (id : String) (body : Obj) (st : WBState) :
    (wbUpdateProduct f id body st).2.db = st.db := by
  unfold wbUpdateProduct
  dsimp only
  cases getProductById st.db id with
  | none => rfl
  | some cur => rfl

theorem wbUpdateProduct_flushedWrites (f : Bool) (id : String) (body : Obj)
    (st : WBState) :
    (wbUpdateProduct f id body st).2.stats.flushedWrites
      = st.stats.flushedWrites := by
  unfold wbUpdateProduct
  dsimp only
  cases getProductById st.db id with
  | none => rfl
  | some cur => rfl

theorem wbUpdateProduct_writeQueue_found (f : Bool) (id : String) (body row : Obj)
    (st : WBState) (h : getProductById st.db id = some row) :
    (wbUpdateProduct f id body st).2.writeQueue
      = mapSet st.writeQueue ("update:" ++ id)
          { operation := .update, id := id, data := some body,
            timestamp := st.now } := by
  unfold wbUpdateProduct
  dsimp only
  rw [h]
  rfl

theorem flushWriteQueue_singleton (st : WBState) (k : String) (w : PendingWrite)
    (hq : st.writeQueue = [(k, w)]) :
    (flushWriteQueue st).db = applyWrite st.db w
    ∧ (flushWriteQueue st).stats.flushedWrites = st.stats.flushedWrites + 1
    ∧ (flushWriteQueue st).writeQueue = [] := by
  unfold flushWriteQueue flushWriteQueueWith drainedWrites
  rw [hq]
  rw [if_neg (by simp)]
  exact ⟨rfl, rfl, rfl⟩

theorem wbUpdate_cache_has_merged (st : WBState) (K : String) (P row : Obj)
    (h : getProductById st.db K = some row) :
    ((wbUpdateProduct false K P st).2.cache).lookup (getCacheKey "product" K)
      = some (CacheVal.obj (jsMerge row P), cacheTTL) := by
  rw [wbUpdateProduct_found false K P row st h]
  dsimp only
  rw [lookup_delAll_not_mem _ _ _ (wb_productKey_not_mem_listKeys _ K)]
  exact lookup_setEntry_self st.cache (getCacheKey "product" K)
    (CacheVal.obj (jsMerge row P)) cacheTTL

theorem wbRead_after_update_hit (st : WBState) (K : String) (P row : Obj)
    (h : getProductById st.db K = some row) :
    (wbGetProduct false K (wbUpdateProduct false K P st).2).1
      = ReadResult.ok (CacheVal.obj (jsMerge row P)) "cache" := by
  have hc := wbUpdate_cache_has_merged st K P row h
  have hg : RedisService.get (wbUpdateProduct false K P st).2.cache false
      (getCacheKey "product" K) = some (CacheVal.obj (jsMerge row P)) := by
    show (((wbUpdateProduct false K P st).2.cache).lookup
      (getCacheKey "product" K)).map Prod.fst = _
    rw [hc]
    rfl
  unfold wbGetProduct
  dsimp only
  rw [hg]

/-- C5: under write-behind, an update of an existing record K with
payload P acknowledges ok, leaves the record store untouched (the store
write is only queued), and an immediately following read of K is served
from the cache with the current record merged with P and provenance
cache. -/
theorem wb_update_immediate_visibility (st : WBState) (K : String) (P row : Obj)
    (h : getProductById st.db K = some row) :
    (wbUpdateProduct false K P st).1 = WriteResult.ok
    ∧ (wbUpdateProduct false K P st).2.db = st.db
    ∧ (wbGetProduct false K (wbUpdateProduct false K P st).2).1
        = ReadResult.ok (CacheVal.obj (jsMerge row P)) "cache" := by
  refine ⟨?_, ?_, wbRead_after_update_hit st K P row h⟩
  · rw [wbUpdateProduct_found false K P row st h]
  · rw [wbUpdateProduct_found false K P row st h]

/-- C5 witness: a concrete record store with product P1, updated with a
new quantity, then read back from the cache. -/
theorem wb_update_immediate_visibility_witness :
    getProductById (WBState.init [("P1", [("qty", "10")])]).db "P1"
      = some [("qty", "10")]
    ∧ ((wbUpdateProduct false "P1" [("qty", "20")]
          (WBState.init [("P1", [("qty", "10")])])).1 = WriteResult.ok
       ∧ (wbUpdateProduct false "P1" [("qty", "20")]
            (WBState.init [("P1", [("qty", "10")])])).2.db
          = (WBState.init [("P1", [("qty", "10")])]).db
       ∧ (wbGetProduct false "P1"
            (wbUpdateProduct false "P1" [("qty", "20")]
              (WBState.init [("P1", [("qty", "10")])])).2).1
          = ReadResult.ok
              (CacheVal.obj (jsMerge [("qty", "10")] [("qty", "20")])) "cache") :=
  ⟨by decide,
   wb_update_immediate_visibility (WBState.init [("P1", [("qty", "10")])])
     "P1" [("qty", "20")] [("qty", "10")] (by decide)⟩

/-- C2: under write-behind with an empty queue, updating record K with
payload A and then with payload B before any flush coalesces to one
pending write; an explicit flush leaves the store reflecting only B for
K and increments the flushed-write counter by exactly one, emptying the
queue. -/
theorem wb_update_coalescing (st : WBState) (K : String) (A B row : Obj)
    (hq : st.writeQueue = []) (h : getProductById st.db K = some row) :
    getProductById
        (flushWriteQueue
          (wbUpdateProduct false K B
            (wbUpdateProduct false K A st).2).2).db K
      = some (applyProductUpdate B row)
    ∧ (flushWriteQueue
        (wbUpdateProduct false K B
          (wbUpdateProduct false K A st).2).2).stats.flushedWrites
      = st.stats.flushedWrites + 1
    ∧ (flushWriteQueue
        (wbUpdateProduct false K B
          (wbUpdateProduct false K A st).2).2).writeQueue = [] := by
  have h1db : (wbUpdateProduct false K A st).2.db = st.db :=
    wbUpdateProduct_db false K A st
  have h2 : getProductById (wbUpdateProduct false K A st).2.db K = some row := by
    rw [h1db]
    exact h
  have h1q : (wbUpdateProduct false K A st).2.writeQueue
      = [("update:" ++ K,
          { operation := .update, id := K, data := some A, timestamp := st.now })] := by
    rw [wbUpdateProduct_writeQueue_found false K A row st h, hq]
    simp [mapSet]
  have h2q : (wbUpdateProduct false K B (wbUpdateProduct false K A st).2).2.writeQueue
      = [("update:" ++ K,
          { operation := .update, id := K, data := some B,
            timestamp := (wbUpdateProduct false K A st).2.now })] := by
    rw [wbUpdateProduct_writeQueue_found false K B row _ h2, h1q]
    simp [mapSet]
  obtain ⟨hfd, hff, hfq⟩ := flushWriteQueue_singleton _ _ _ h2q
  refine ⟨?_, ?_, hfq⟩
  · rw [hfd, wbUpdateProduct_db, h1db]
    show getProductById (updateProduct st.db K B) K = _
    rw [getProductById_updateProduct, h]
    rfl
  · rw [hff, wbUpdateProduct_flushedWrites, wbUpdateProduct_flushedWrites]

/-- C2 witness: the spec scenario at a concrete store, update twice then
flush. -/
theorem wb_update_coalescing_witness :
    (WBState.init [("P1", [("qty", "10")])]).writeQueue = []
    ∧ getProductById (WBState.init [("P1", [("qty", "10")])]).db "P1"
        = some [("qty", "10")]
    ∧ (getProductById
          (flushWriteQueue
            (wbUpdateProduct false "P1" [("qty", "20")]
              (wbUpdateProduct false "P1" [("qty", "15")]
                (WBState.init [("P1", [("qty", "10")])])).2).2).db "P1"
        = some (applyProductUpdate [("qty", "20")] [("qty", "10")])
       ∧ (flushWriteQueue
            (wbUpdateProduct false "P1" [("qty", "20")]
              (wbUpdateProduct false "P1" [("qty", "15")]
                (WBState.init [("P1", [("qty", "10")])])).2).2).stats.flushedWrites
          = (WBState.init [("P1", [("qty", "10")])]).stats.flushedWrites + 1
       ∧ (flushWriteQueue
            (wbUpdateProduct false "P1" [("qty", "20")]
              (wbUpdateProduct false "P1" [("qty", "15")]
                (WBState.init [("P1", [("qty", "10")])])).2).2).writeQueue = []) :=
  ⟨rfl, by decide,
   wb_update_coalescing (WBState.init [("P1", [("qty", "10")])])
     "P1" [("qty", "15")] [("qty", "20")] [("qty", "10")] rfl (by decide)⟩

/-! Read after delete under write-behind: the record is only
queue-deleted, so a pre-flush read reloads it from the store. -/

theorem wbDeleteProduct_db (f : Bool) (K : String) (st : WBState) :
    (wbDeleteProduct f K st).db = st.db := rfl

theorem wbDelete_cache_cleared (st : WBState) (K : String) :
    ((wbDeleteProduct false K st).cache).lookup (getCacheKey "product" K)
      = none := by
  unfold wbDeleteProduct
  dsimp only [queueWrite]
  exact lookup_delAll_none _ _ _
    (lookup_filter_self (getCacheKey "product" K) st.cache)

theorem wbCreate_cache_has_body (st : WBState) (body : Obj) :
    ((wbCreateProduct false body st).cache).lookup
        (getCacheKey "product" ((body.lookup "productCode").getD ""))
      = some (CacheVal.obj body, cacheTTL) := by
  unfold wbCreateProduct
  dsimp only [queueWrite]
  rw [lookup_delAll_not_mem _ _ _ (wb_productKey_not_mem_listKeys _ _)]
  exact lookup_setEntry_self st.cache _ (CacheVal.obj body) cacheTTL

theorem wbRead_after_create_hit (st : WBState) (body : Obj) :
    (wbGetProduct false ((body.lookup "productCode").getD "")
        (wbCreateProduct false body st)).1
      = ReadResult.ok (CacheVal.obj body) "cache" := by
  have hc := wbCreate_cache_has_body st body
  have hg : RedisService.get (wbCreateProduct false body st).cache false
      (getCacheKey "product" ((body.lookup "productCode").getD ""))
      = some (CacheVal.obj body) := by
    show (((wbCreateProduct false body st).cache).lookup
      (getCacheKey "product" ((body.lookup "productCode").getD ""))).map Prod.fst = _
    rw [hc]
    rfl
  unfold wbGetProduct
  dsimp only
  rw [hg]

theorem wbRead_after_delete (st : WBState) (K : String) (row : Obj)
    (h : getProductById st.db K = some row) :
    (wbGetProduct false K (wbDeleteProduct false K st)).1
        = ReadResult.ok (CacheVal.obj row) "database"
    ∧ ((wbGetProduct false K (wbDeleteProduct false K st)).2.cache).lookup
        (getCacheKey "product" K) = some (CacheVal.obj row, cacheTTL) := by
  have hg : RedisService.get (wbDeleteProduct false K st).cache false
      (getCacheKey "product" K) = none := by
    show (((wbDeleteProduct false K st).cache).lookup
      (getCacheKey "product" K)).map Prod.fst = none
    rw [wbDelete_cache_cleared]
    rfl
  have hdb : getProductById (wbDeleteProduct false K st).db K = some row := by
    rw [wbDeleteProduct_db]
    exact h
  unfold wbGetProduct
  dsimp only
  rw [hg, hdb]
  refine ⟨rfl, ?_⟩
  dsimp only
  exact lookup_setEntry_self _ _ _ _

/-- C4 (corrected): under write-behind an update is immediately visible
to a following read, from the cache, and so is a create (a read of the
created productCode is served the payload from the cache); but after a
delete of K returns and before the queue is flushed, a read of K misses
the cache, finds the record still present in the store, returns it with
provenance database, and repopulates the cache with the deleted
record. -/
theorem wb_read_after_write (st : WBState) (K : String) (P row body : Obj)
    (h : getProductById st.db K = some row) :
    (wbGetProduct false K (wbUpdateProduct false K P st).2).1
        = ReadResult.ok (CacheVal.obj (jsMerge row P)) "cache"
    ∧ (wbGetProduct false ((body.lookup "productCode").getD "")
        (wbCreateProduct false body st)).1
        = ReadResult.ok (CacheVal.obj body) "cache"
    ∧ (wbDeleteProduct false K st).db = st.db
    ∧ (wbGetProduct false K (wbDeleteProduct false K st)).1
        = ReadResult.ok (CacheVal.obj row) "database"
    ∧ ((wbGetProduct false K (wbDeleteProduct false K st)).2.cache).lookup
        (getCacheKey "product" K) = some (CacheVal.obj row, cacheTTL) :=
  ⟨wbRead_after_update_hit st K P row h,
   wbRead_after_create_hit st body,
   wbDeleteProduct_db false K st,
   (wbRead_after_delete st K row h).1,
   (wbRead_after_delete st K row h).2⟩

/-- C4 witness: concrete store with record K, updated, a fresh product
created, and K deleted. -/
theorem wb_read_after_write_witness :
    getProductById (WBState.init [("K", [("qty", "10")])]).db "K"
      = some [("qty", "10")]
    ∧ ((wbGetProduct false "K"
          (wbUpdateProduct false "K" [("qty", "20")]
            (WBState.init [("K", [("qty", "10")])])).2).1
        = ReadResult.ok
            (CacheVal.obj (jsMerge [("qty", "10")] [("qty", "20")])) "cache"
       ∧ (wbGetProduct false
            (((([("productCode", "K2"), ("qty", "5")] : Obj).lookup
              "productCode")).getD "")
            (wbCreateProduct false [("productCode", "K2"), ("qty", "5")]
              (WBState.init [("K", [("qty", "10")])]))).1
          = ReadResult.ok
              (CacheVal.obj [("productCode", "K2"), ("qty", "5")]) "cache"
       ∧ (wbDeleteProduct false "K" (WBState.init [("K", [("qty", "10")])])).db
          = (WBState.init [("K", [("qty", "10")])]).db
       ∧ (wbGetProduct false "K"
            (wbDeleteProduct false "K" (WBState.init [("K", [("qty", "10")])]))).1
          = ReadResult.ok (CacheVal.obj [("qty", "10")]) "database"
       ∧ ((wbGetProduct false "K"
            (wbDeleteProduct false "K"
              (WBState.init [("K", [("qty", "10")])]))).2.cache).lookup
            (getCacheKey "product" "K")
          = some (CacheVal.obj [("qty", "10")], cacheTTL)) :=
  ⟨by decide,
   wb_read_after_write (WBState.init [("K", [("qty", "10")])])
     "K" [("qty", "20")] [("qty", "10")] [("productCode", "K2"), ("qty", "5")]
     (by decide)⟩

/-- C4 counterexample: with record K in the store, delete(K) followed by
a pre-flush readOne(K) returns the deleted record (provenance database)
and puts it back into the cache, refuting the claim that the read must
not observe it. -/
theorem wb_delete_then_read_returns_deleted :
    (wbGetProduct false "K"
        (wbDeleteProduct false "K" (WBState.init [("K", [("qty", "10")])]))).1
      = ReadResult.ok (CacheVal.obj [("qty", "10")]) "database"
    ∧ (RedisService.get
        (wbGetProduct false "K"
          (wbDeleteProduct false "K"
            (WBState.init [("K", [("qty", "10")])]))).2.cache false
        (getCacheKey "product" "K"))
      = some (CacheVal.obj [("qty", "10")]) := by
  refine ⟨by decide, by decide⟩

/-- C6: when the i-th pending write of the drained snapshot fails
during a flush, it is discarded: the queue is left empty (no requeue),
the remaining writes of the snapshot are still applied to the record
store in order, and the flushed-write counter is incremented only for
them (snapshot length minus one). -/
theorem wb_flush_drop_failure (st : WBState) (i : Nat)
    (h : i < st.writeQueue.length) :
    (flushWriteQueueWith (List.replicate i false ++ [true]) st).writeQueue = []
    ∧ (flushWriteQueueWith (List.replicate i false ++ [true]) st).db
        = ((drainedWrites st).eraseIdx i).foldl applyWrite st.db
    ∧ (flushWriteQueueWith (List.replicate i false ++ [true]) st).stats.flushedWrites
        = st.stats.flushedWrites + ((drainedWrites st).length - 1) := by
  have hne : ¬ st.writeQueue.isEmpty = true := by
    rw [List.isEmpty_iff]
    intro he
    rw [he] at h
    simp at h
  unfold flushWriteQueueWith
  rw [if_neg hne]
  dsimp only
  rw [flushLoop_spec, survivors_single_failure]
  refine ⟨rfl, rfl, ?_⟩
  have hlen : ((drainedWrites st).eraseIdx i).length
      = (drainedWrites st).length - 1 := by
    apply List.length_eraseIdx_of_lt
    simpa [drainedWrites] using h
  rw [hlen]

/-- C6 witness: two queued creates; the first database call raises, the
second write is still applied, the counter counts only the success. -/
theorem wb_flush_drop_failure_witness :
    0 < (WBState.mk [] []
        [("create:A", ⟨WriteOp.create, "A", some [("productCode", "A")], 0⟩),
         ("create:B", ⟨WriteOp.create, "B", some [("productCode", "B")], 1⟩)]
        Stats.init 2).writeQueue.length
    ∧ ((flushWriteQueueWith (List.replicate 0 false ++ [true])
          (WBState.mk [] []
            [("create:A", ⟨WriteOp.create, "A", some [("productCode", "A")], 0⟩),
             ("create:B", ⟨WriteOp.create, "B", some [("productCode", "B")], 1⟩)]
            Stats.init 2)).writeQueue = []
       ∧ (flushWriteQueueWith (List.replicate 0 false ++ [true])
            (WBState.mk [] []
              [("create:A", ⟨WriteOp.create, "A", some [("productCode", "A")], 0⟩),
               ("create:B", ⟨WriteOp.create, "B", some [("productCode", "B")], 1⟩)]
              Stats.init 2)).db
          = ((drainedWrites
                (WBState.mk [] []
                  [("create:A", ⟨WriteOp.create, "A", some [("productCode", "A")], 0⟩),
                   ("create:B", ⟨WriteOp.create, "B", some [("productCode", "B")], 1⟩)]
                  Stats.init 2)).eraseIdx 0).foldl applyWrite
              (WBState.mk [] []
                [("create:A", ⟨WriteOp.create, "A", some [("productCode", "A")], 0⟩),
                 ("create:B", ⟨WriteOp.create, "B", some [("productCode", "B")], 1⟩)]
                Stats.init 2).db
       ∧ (flushWriteQueueWith (List.replicate 0 false ++ [true])
            (WBState.mk [] []
              [("create:A", ⟨WriteOp.create, "A", some [("productCode", "A")], 0⟩),
               ("create:B", ⟨WriteOp.create, "B", some [("productCode", "B")], 1⟩)]
              Stats.init 2)).stats.flushedWrites
          = (WBState.mk [] []
              [("create:A", ⟨WriteOp.create, "A", some [("productCode", "A")], 0⟩),
               ("create:B", ⟨WriteOp.create, "B", some [("productCode", "B")], 1⟩)]
              Stats.init 2).stats.flushedWrites
            + ((drainedWrites
                (WBState.mk [] []
                  [("create:A", ⟨WriteOp.create, "A", some [("productCode", "A")], 0⟩),
                   ("create:B", ⟨WriteOp.create, "B", some [("productCode", "B")], 1⟩)]
                  Stats.init 2)).length - 1)) :=
  ⟨by decide,
   wb_flush_drop_failure
     (WBState.mk [] []
       [("create:A", ⟨WriteOp.create, "A", some [("productCode", "A")], 0⟩),
        ("create:B", ⟨WriteOp.create, "B", some [("productCode", "B")], 1⟩)]
       Stats.init 2) 0 (by decide)⟩

/-- C7: the cache wrapper absorbs every cache-layer failure: a failed
get returns null (a miss), a failed set or del or flush returns false
leaving the cache unchanged, a failed keys returns the empty list; and
the enclosing operation is unaffected — a read with a failing cache
returns exactly what the no-caching read path returns (provenance
database) without touching the store, cache or queue, and a write with
a failing cache yields the same response, record store, write queue and
stats as the write with a healthy cache, differing at most in the cache
contents. -/
theorem cache_failure_fail_open :
    (∀ (c : Cache) (k : String), RedisService.get c true k = none)
    ∧ (∀ (c : Cache) (k : String) (v : CacheVal) (ttl : Nat),
        RedisService.set c true k v ttl = (false, c))
    ∧ (∀ (c : Cache) (k : String), RedisService.del c true k = (false, c))
    ∧ (∀ (c : Cache) (pat : String), RedisService.keys c true pat = [])
    ∧ (∀ c : Cache, RedisService.flush c true = (false, c))
    ∧ (∀ (st : WBState) (id : String) (s : NCStats),
        (wbGetProduct true id st).1 = (ncGetProduct id (NCState.mk st.db s)).1
        ∧ (wbGetProduct true id st).2.db = st.db
        ∧ (wbGetProduct true id st).2.cache = st.cache
        ∧ (wbGetProduct true id st).2.writeQueue = st.writeQueue)
    ∧ (∀ (st : WBState) (id : String) (body : Obj),
        (wbUpdateProduct true id body st).1 = (wbUpdateProduct false id body st).1
        ∧ (wbUpdateProduct true id body st).2.db
            = (wbUpdateProduct false id body st).2.db
        ∧ (wbUpdateProduct true id body st).2.writeQueue
            = (wbUpdateProduct false id body st).2.writeQueue
        ∧ (wbUpdateProduct true id body st).2.stats
            = (wbUpdateProduct false id body st).2.stats)
    ∧ (∀ (st : WBState) (id : String),
        (wbDeleteProduct true id st).db = (wbDeleteProduct false id st).db
        ∧ (wbDeleteProduct true id st).writeQueue
            = (wbDeleteProduct false id st).writeQueue
        ∧ (wbDeleteProduct true id st).stats
            = (wbDeleteProduct false id st).stats) := by
  refine ⟨fun c k => rfl, fun c k v ttl => rfl, fun c k => rfl,
    fun c pat => rfl, fun c => rfl, ?_, ?_, ?_⟩
  · intro st id s
    unfold wbGetProduct ncGetProduct
    dsimp only [RedisService.get]
    cases getProductById st.db id with
    | some p => exact ⟨rfl, rfl, rfl, rfl⟩
    | none => exact ⟨rfl, rfl, rfl, rfl⟩
  · intro st id body
    unfold wbUpdateProduct
    dsimp only
    cases getProductById st.db id with
    | none => exact ⟨rfl, rfl, rfl, rfl⟩
    | some cur => exact ⟨rfl, rfl, rfl, rfl⟩
  · intro st id
    exact ⟨rfl, rfl, rfl⟩

/-- C8: the stats-reset endpoint of every cache-backed strategy zeroes
all counters (reads, writes, cacheHits, cacheMisses, queuedWrites,
flushedWrites), empties the recorded-latency list and clears the whole
cache store; write-behind first flushes its pending queue to the record
store (the reset state keeps the flushed store and an empty queue). A
probe read of any key right after reset is a cache miss: it counts one
miss, no hit, and is never served with provenance cache. -/
theorem stats_reset_clears (st : WBState) (wst : CAState) (k : String) :
    wbResetStats false st
        = WBState.mk (flushWriteQueue st).db [] [] Stats.init st.now
    ∧ waResetStats false wst = CAState.mk wst.db [] Stats.init
    ∧ rtResetStats false wst = CAState.mk wst.db [] Stats.init
    ∧ (wbGetProduct false k (wbResetStats false st)).2.stats.cacheHits = 0
    ∧ (wbGetProduct false k (wbResetStats false st)).2.stats.cacheMisses = 1
    ∧ (∀ v, (wbGetProduct false k (wbResetStats false st)).1
        ≠ ReadResult.ok v "cache")
    ∧ (waGetProduct false k (waResetStats false wst)).2.stats.cacheHits = 0
    ∧ (waGetProduct false k (waResetStats false wst)).2.stats.cacheMisses = 1
    ∧ (∀ v, (waGetProduct false k (waResetStats false wst)).1
        ≠ ReadResult.ok v "cache") := by
  have hwb : wbResetStats false st
      = WBState.mk (flushWriteQueue st).db [] [] Stats.init st.now := by
    unfold wbResetStats
    by_cases he : st.writeQueue.isEmpty
    · have hq := List.isEmpty_iff.mp he
      unfold flushWriteQueue flushWriteQueueWith
      rw [if_pos he]
      dsimp only
      rw [hq]
      rfl
    · unfold flushWriteQueue flushWriteQueueWith
      rw [if_neg he]
      dsimp only
      rfl
  refine ⟨hwb, rfl, rfl, ?_, ?_, ?_, ?_, ?_, ?_⟩
  · rw [hwb]
    unfold wbGetProduct
    dsimp only [RedisService.get]
    cases getProductById (flushWriteQueue st).db k with
    | some p => rfl
    | none => rfl
  · rw [hwb]
    unfold wbGetProduct
    dsimp only [RedisService.get]
    cases getProductById (flushWriteQueue st).db k with
    | some p => rfl
    | none => rfl
  · rw [hwb]
    unfold wbGetProduct
    dsimp only [RedisService.get]
    cases getProductById (flushWriteQueue st).db k with
    | some p =>
      intro v hv
      injection hv with h1 h2
      exact absurd h2 (by decide)
    | none =>
      intro v hv
      exact ReadResult.noConfusion hv
  · show (waGetProduct false k (CAState.mk wst.db [] Stats.init)).2.stats.cacheHits = 0
    unfold waGetProduct
    dsimp only [RedisService.get]
    cases getProductById wst.db k with
    | some p => rfl
    | none => rfl
  · show (waGetProduct false k (CAState.mk wst.db [] Stats.init)).2.stats.cacheMisses = 1
    unfold waGetProduct
    dsimp only [RedisService.get]
    cases getProductById wst.db k with
    | some p => rfl
    | none => rfl
  · show ∀ v, (waGetProduct false k (CAState.mk wst.db [] Stats.init)).1
        ≠ ReadResult.ok v "cache"
    unfold waGetProduct
    dsimp only [RedisService.get]
    cases getProductById wst.db k with
    | some p =>
      intro v hv
      injection hv with h1 h2
      exact absurd h2 (by decide)
    | none =>
      intro v hv
      exact ReadResult.noConfusion hv

/-- C9: the read-through get-or-load primitive is extensionally equal
to the inline cache-aside read fragment of the other cached strategies:
for every fault mode, cache state, stats, key and loader result both
return the same value and provenance and leave the same cache and
stats; and both behave as cache-aside prescribes — provenance cache on
a hit with the cache untouched, provenance database on a miss with the
cache populated under the standard ttl exactly when the loader returned
a record. -/
theorem rt_getOrLoad_refines_cacheAside (fault : Bool) (c : Cache) (s : Stats)
    (key : String) (loader : Option CacheVal) :
    getOrLoad fault c s key loader = waInlineRead fault c s key loader
    ∧ getOrLoad fault c s key loader
        = (match RedisService.get c fault key with
           | some v => ((some v, "cache"), c, recordReadHit s)
           | none =>
             match loader with
             | some l =>
               ((some l, "database"),
                (RedisService.set c fault key l cacheTTL).2, recordReadMiss s)
             | none => ((none, "database"), c, recordReadMiss s)) :=
  ⟨rfl, rfl⟩

/-! The read-counter equation is preserved by every operation of every
strategy. -/

theorem statsOK_wbStep (f : Bool) (op : WBOp) (st : WBState)
    (h : statsOK st.stats) : statsOK (wbStep f op st).stats := by
  cases op with
  | readOne id =>
    show statsOK (wbGetProduct f id st).2.stats
    unfold wbGetProduct
    dsimp only
    cases RedisService.get st.cache f (getCacheKey "product" id) with
    | some v =>
      simp [statsOK, recordDuration, recordReadHit] at h ⊢
      omega
    | none =>
      cases getProductById st.db id with
      | some p =>
        simp [statsOK, recordDuration, recordReadMiss] at h ⊢
        omega
      | none =>
        simp [statsOK, recordDuration, recordReadMiss] at h ⊢
        omega
  | readAll limit =>
    show statsOK (wbGetAllProducts f limit st).2.stats
    unfold wbGetAllProducts
    dsimp only
    cases RedisService.get st.cache f (getCacheKey "products" ("all:" ++ toString limit)) with
    | some v =>
      simp [statsOK, recordDuration, recordReadHit] at h ⊢
      omega
    | none =>
      simp [statsOK, recordDuration, recordReadMiss] at h ⊢
      omega
  | update id body =>
    show statsOK (wbUpdateProduct f id body st).2.stats
    unfold wbUpdateProduct
    dsimp only
    cases getProductById st.db id with
    | none =>
      simpa [statsOK, recordWrite] using h
    | some cur =>
      simp only [queueWrite]
      simpa [statsOK, recordDuration, recordWrite] using h
  | create body =>
    show statsOK (wbCreateProduct f body st).stats
    unfold wbCreateProduct
    simp only [queueWrite]
    simpa [statsOK, recordDuration, recordWrite] using h
  | delete id =>
    show statsOK (wbDeleteProduct f id st).stats
    unfold wbDeleteProduct
    simp only [queueWrite]
    simpa [statsOK, recordDuration, recordWrite] using h
  | flush =>
    show statsOK (flushWriteQueue st).stats
    unfold flushWriteQueue flushWriteQueueWith
    by_cases he : st.writeQueue.isEmpty
    · rw [if_pos he]
      exact h
    · rw [if_neg he]
      simpa [statsOK] using h
  | reset =>
    show statsOK (wbResetStats f st).stats
    exact rfl

theorem statsOK_wbRun (f : Bool) (ops : List WBOp) (st : WBState)
    (h : statsOK st.stats) : statsOK (wbRun f ops st).stats := by
  induction ops generalizing st with
  | nil => exact h
  | cons op rest ih =>
    show statsOK (wbRun f rest (wbStep f op st)).stats
    exact ih _ (statsOK_wbStep f op st h)

theorem statsOK_waStep (f : Bool) (op : WAOp) (st : CAState)
    (h : statsOK st.stats) : statsOK (waStep f op st).stats := by
  cases op with
  | readOne id =>
    show statsOK (waGetProduct f id st).2.stats
    unfold waGetProduct
    dsimp only
    cases RedisService.get st.cache f (waGetCacheKey "product" id) with
    | some v =>
      simp [statsOK, recordDuration, recordReadHit] at h ⊢
      omega
    | none =>
      cases getProductById st.db id with
      | some p =>
        simp [statsOK, recordDuration, recordReadMiss] at h ⊢
        omega
      | none =>
        simp [statsOK, recordDuration, recordReadMiss] at h ⊢
        omega
  | readAll limit =>
    show statsOK (waGetAllProducts f limit st).2.stats
    unfold waGetAllProducts
    dsimp only
    cases RedisService.get st.cache f (waGetCacheKey "products" ("all:" ++ toString limit)) with
    | some v =>
      simp [statsOK, recordDuration, recordReadHit] at h ⊢
      omega
    | none =>
      simp [statsOK, recordDuration, recordReadMiss] at h ⊢
      omega
  | update id body =>
    show statsOK (waUpdateProduct f id body st).2.stats
    unfold waUpdateProduct
    dsimp only
    cases getProductById st.db id with
    | none =>
      simpa [statsOK, recordWrite] using h
    | some cur =>
      simpa [statsOK, recordDuration, recordWrite] using h
  | create body =>
    show statsOK (waCreateProduct f body st).stats
    unfold waCreateProduct
    simpa [statsOK, recordDuration, recordWrite] using h
  | delete id =>
    show statsOK (waDeleteProduct f id st).stats
    unfold waDeleteProduct
    simpa [statsOK, recordDuration, recordWrite] using h
  | reset =>
    show statsOK (waResetStats f st).stats
    exact rfl

theorem statsOK_waRun (f : Bool) (ops : List WAOp) (st : CAState)
    (h : statsOK st.stats) : statsOK (waRun f ops st).stats := by
  induction ops generalizing st with
  | nil => exact h
  | cons op rest ih =>
    show statsOK (waRun f rest (waStep f op st)).stats
    exact ih _ (statsOK_waStep f op st h)

theorem statsOK_rtStep (f : Bool) (op : RTOp) (st : CAState)
    (h : statsOK st.stats) : statsOK (rtStep f op st).stats := by
  cases op with
  | readOne id =>
    show statsOK (rtGetProduct f id st).2.stats
    unfold rtGetProduct getOrLoad
    dsimp only
    cases RedisService.get st.cache f (rtGetCacheKey "product" id) with
    | some v =>
      simp [statsOK, recordDuration, recordReadHit] at h ⊢
      omega
    | none =>
      cases getProductById st.db id with
      | some p =>
        simp [statsOK, recordDuration, recordReadMiss] at h ⊢
        omega
      | none =>
        simp [statsOK, recordDuration, recordReadMiss] at h ⊢
        omega
  | readAll limit =>
    show statsOK (rtGetAllProducts f limit st).2.stats
    unfold rtGetAllProducts getOrLoad
    dsimp only
    cases RedisService.get st.cache f (rtGetCacheKey "products" ("all:" ++ toString limit)) with
    | some v =>
      simp [statsOK, recordDuration, recordReadHit] at h ⊢
      omega
    | none =>
      simp [statsOK, recordDuration, recordReadMiss] at h ⊢
      omega
  | update id body =>
    show statsOK (rtUpdateProduct f id body st).2.stats
    unfold rtUpdateProduct
    dsimp only
    cases getProductById st.db id with
    | none =>
      simpa [statsOK, recordWrite] using h
    | some cur =>
      simpa [statsOK, recordDuration, recordWrite] using h
  | create body =>
    show statsOK (rtCreateProduct f body st).stats
    unfold rtCreateProduct
    dsimp only
    cases body.lookup "productCode" with
    | some id =>
      simpa [statsOK, recordDuration, recordWrite] using h
    | none =>
      simpa [statsOK, recordDuration, recordWrite] using h
  | delete id =>
    show statsOK (rtDeleteProduct f id st).stats
    unfold rtDeleteProduct
    simpa [statsOK, recordDuration, recordWrite] using h
  | reset =>
    show statsOK (rtResetStats f st).stats
    exact rfl

theorem statsOK_rtRun (f : Bool) (ops : List RTOp) (st : CAState)
    (h : statsOK st.stats) : statsOK (rtRun f ops st).stats := by
  induction ops generalizing st with
  | nil => exact h
  | cons op rest ih =>
    show statsOK (rtRun f rest (rtStep f op st)).stats
    exact ih _ (statsOK_rtStep f op st h)

theorem ncStatsOK_ncStep (op : NCOp) (st : NCState)
    (h : ncStatsOK st.stats) : ncStatsOK (ncStep op st).stats := by
  cases op with
  | readOne id =>
    show ncStatsOK (ncGetProduct id st).2.stats
    unfold ncGetProduct
    dsimp only
    cases getProductById st.db id with
    | some p =>
      simp [ncStatsOK, recordRead] at h ⊢
      omega
    | none =>
      simp [ncStatsOK, recordRead] at h ⊢
      omega
  | readAll limit =>
    show ncStatsOK (ncGetAllProducts limit st).2.stats
    unfold ncGetAllProducts
    simp [ncStatsOK, recordRead] at h ⊢
    omega
  | update id body =>
    show ncStatsOK (ncUpdateProduct id body st).2.stats
    unfold ncUpdateProduct
    dsimp only
    by_cases hp : (getProductById st.db id).isSome
    · rw [if_pos hp]
      simpa [ncStatsOK] using h
    · rw [if_neg hp]
      simpa [ncStatsOK] using h
  | create body =>
    show ncStatsOK (ncCreateProduct body st).stats
    unfold ncCreateProduct
    simpa [ncStatsOK] using h
  | delete id =>
    show ncStatsOK (ncDeleteProduct id st).stats
    unfold ncDeleteProduct
    simpa [ncStatsOK] using h
  | reset =>
    show ncStatsOK (ncResetStats st).stats
    exact rfl

theorem ncStatsOK_ncRun (ops : List NCOp) (st : NCState)
    (h : ncStatsOK st.stats) : ncStatsOK (ncRun ops st).stats := by
  induction ops generalizing st with
  | nil => exact h
  | cons op rest ih =>
    show ncStatsOK (ncRun rest (ncStep op st)).stats
    exact ih _ (ncStatsOK_ncStep op st h)

/-- C10: for every strategy and every operation sequence from a fresh
instance, the stats satisfy cacheHits + cacheMisses = reads: every
completed read increments reads and exactly one of the two, reset
zeroes all three together, and the write and flush operations leave all
three untouched (shown for the write-behind update and flush). -/
theorem stats_hits_plus_misses_eq_reads (fault : Bool) (wbOps : List WBOp)
    (waOps : List WAOp) (rtOps : List RTOp) (ncOps : List NCOp) (db : Db)
    (st : WBState) (id : String) (body : Obj) :
    statsOK (wbRun fault wbOps (WBState.init db)).stats
    ∧ statsOK (waRun fault waOps (CAState.init db)).stats
    ∧ statsOK (rtRun fault rtOps (CAState.init db)).stats
    ∧ ncStatsOK (ncRun ncOps (NCState.init db)).stats
    ∧ (wbUpdateProduct fault id body st).2.stats.reads = st.stats.reads
    ∧ (wbUpdateProduct fault id body st).2.stats.cacheHits = st.stats.cacheHits
    ∧ (wbUpdateProduct fault id body st).2.stats.cacheMisses = st.stats.cacheMisses
    ∧ (flushWriteQueue st).stats.reads = st.stats.reads
    ∧ (flushWriteQueue st).stats.cacheHits = st.stats.cacheHits
    ∧ (flushWriteQueue st).stats.cacheMisses = st.stats.cacheMisses := by
  have hupd : (wbUpdateProduct fault id body st).2.stats.reads = st.stats.reads
      ∧ (wbUpdateProduct fault id body st).2.stats.cacheHits = st.stats.cacheHits
      ∧ (wbUpdateProduct fault id body st).2.stats.cacheMisses
          = st.stats.cacheMisses := by
    unfold wbUpdateProduct
    dsimp only
    cases getProductById st.db id with
    | none => exact ⟨rfl, rfl, rfl⟩
    | some cur => exact ⟨rfl, rfl, rfl⟩
  have hfl : (flushWriteQueue st).stats.reads = st.stats.reads
      ∧ (flushWriteQueue st).stats.cacheHits = st.stats.cacheHits
      ∧ (flushWriteQueue st).stats.cacheMisses = st.stats.cacheMisses := by
    unfold flushWriteQueue flushWriteQueueWith
    by_cases he : st.writeQueue.isEmpty
    · rw [if_pos he]
      exact ⟨rfl, rfl, rfl⟩
    · rw [if_neg he]
      exact ⟨rfl, rfl, rfl⟩
  exact ⟨statsOK_wbRun fault wbOps _ rfl, statsOK_waRun fault waOps _ rfl,
    statsOK_rtRun fault rtOps _ rfl, ncStatsOK_ncRun ncOps _ rfl,
    hupd.1, hupd.2.1, hupd.2.2, hfl.1, hfl.2.1, hfl.2.2⟩

end SASPS
